import Mathlib

/-!
Shallow embedding of the sales-analysis backend (src/main.py) and proofs of the
frozen claims about it.

Conventions used throughout:
  - Python floats are modelled as exact rationals; arithmetic on them is exact.
    Binary floating-point representation effects are outside the model.
  - The arithmetic in the executable definitions is written with the wrappers
    qadd, qsub, qmul, qdiv below.  Each wrapper is proved equal to the ordinary
    rational operation; the wrappers are needed only because the library
    implementations of those operations are marked irreducible, which would
    prevent concrete instances from being checked by evaluation.
  - Python strings are modelled by Lean strings; string internals are handled
    through the underlying character list (String.data).
  - A Python value that may be None is modelled as Option String.  In DictReader
    rows, a key that is absent and a key bound to None are collapsed to
    Option.none; every consumer in the source treats the two identically (the
    call-site defaults "0" and "" parse to the same results as None does), so
    the collapse is extensionally faithful.
  - Fallible code is modelled with Option / Except.
-/

namespace SalesAnalysis

/-! ## Kernel-computable rational arithmetic -/

/-- Addition on rationals, computable by evaluation.  Equal to + by qadd_eq. -/
def qadd (a b : ℚ) : ℚ := mkRat (a.num * b.den + b.num * a.den) (a.den * b.den)

/-- Subtraction on rationals, computable by evaluation.  Equal to - by qsub_eq. -/
def qsub (a b : ℚ) : ℚ := mkRat (a.num * b.den - b.num * a.den) (a.den * b.den)

/-- Multiplication on rationals, computable by evaluation.  Equal to * by qmul_eq. -/
def qmul (a b : ℚ) : ℚ := mkRat (a.num * b.num) (a.den * b.den)

/-- Division on rationals, computable by evaluation.  Equal to / by qdiv_eq;
in particular division by zero yields zero, exactly as for /. -/
def qdiv (a b : ℚ) : ℚ := Rat.divInt (a.num * b.den) (a.den * b.num)

theorem qadd_eq (a b : ℚ) : qadd a b = a + b := (Rat.add_def' a b).symm

theorem qsub_eq (a b : ℚ) : qsub a b = a - b := (Rat.sub_def' a b).symm

theorem qmul_eq (a b : ℚ) : qmul a b = a * b := by
  rw [qmul, Rat.mul_def, Rat.normalize_eq_mkRat]

theorem qdiv_eq (a b : ℚ) : qdiv a b = a / b := (Rat.div_def' a b).symm

/-! ## Character and string helpers -/

/-- ASCII digit test, matching the regex character class 0-9. -/
def isDigitChar (c : Char) : Bool :=
  '0' ≤ c && c ≤ '9'

/-- Numeric value of an ASCII digit. -/
def digitVal (c : Char) : Nat := c.toNat - 48

/-- Whitespace stripped by Python str.strip on ASCII input.  Python also strips
a few Unicode space characters; those are removed later by the currency regex
as well, so the difference never changes any value computed by the source. -/
def isPySpace (c : Char) : Bool :=
  c = ' ' || c = '\t' || c = '\n' || c = '\r' || c = '\x0b' || c = '\x0c'

/-- Python str.strip: drop whitespace from both ends. -/
def pyStrip (cs : List Char) : List Char :=
  ((cs.dropWhile isPySpace).reverse.dropWhile isPySpace).reverse

/-- Decimal value of a digit string (most significant first). -/
def natVal (cs : List Char) : Nat :=
  cs.foldl (fun n c => n * 10 + digitVal c) 0

/-! ## The numeric normalizer to_float (src/main.py lines 23-39) -/

/-- CURRENCY_RE.sub("", s): remove every character that is not an ASCII digit,
a point, or a minus sign. -/
def stripCurrency (cs : List Char) : List Char :=
  cs.filter (fun c => isDigitChar c || c = '.' || c = '-')

/-- Python float() restricted to strings over the alphabet 0-9, point, minus —
the only alphabet it is ever applied to after stripCurrency.  On that alphabet
float() accepts exactly: an optional leading minus, then digits with at most
one point and at least one digit.  Returns none where Python raises ValueError. -/
def parseDecimal (cs : List Char) : Option ℚ :=
  let core : List Char → Option ℚ := fun l =>
    let intPart := l.takeWhile isDigitChar
    let rest := l.dropWhile isDigitChar
    match rest with
    | [] => if intPart = [] then none else some (mkRat (natVal intPart) 1)
    | '.' :: rest2 =>
      let fracPart := rest2.takeWhile isDigitChar
      let rest3 := rest2.dropWhile isDigitChar
      if rest3 = [] ∧ (intPart ≠ [] ∨ fracPart ≠ []) then
        some (mkRat (natVal intPart * 10 ^ fracPart.length + natVal fracPart)
          (10 ^ fracPart.length))
      else none
    | _ => none
  match cs with
  | '-' :: t => (core t).map (fun q => -q)
  | _ => core cs

/-- src/main.py to_float: total numeric normalizer.  The isinstance branch for
int/float inputs is unreachable here since every call site passes a string or
None, modelled by Option String. -/
def to_float (val : Option String) : ℚ :=
  match val with
  | none => 0
  | some v =>
    let s := pyStrip v.data
    if s = [] then 0
    else
      let s2 := stripCurrency s
      if s2 = [] then 0 else (parseDecimal s2).getD 0

/-- The numeric normalizer as the amended claim describes it: strip every
character that is not a digit, a decimal point or a minus sign (minus signs kept
wherever they occur), and return the decimal value of the remainder when it is a
well-formed decimal numeral, 0 otherwise. -/
def toNumberSpec (val : Option String) : ℚ :=
  match val with
  | none => 0
  | some v => (parseDecimal (stripCurrency v.data)).getD 0

/-- The original claim's literal stripping rule: keep digits, decimal points,
and a minus sign only in the leading position; then read the remainder as a
decimal numeral, 0 when nothing parseable remains. -/
def toNumberSpecLiteral (val : Option String) : ℚ :=
  match val with
  | none => 0
  | some v =>
    let keep : List Char → List Char := fun l => l.filter (fun c => isDigitChar c || c = '.')
    let stripped :=
      match v.data with
      | '-' :: t => '-' :: keep t
      | l => keep l
    (parseDecimal stripped).getD 0

/-! ## Dates: parse_date (src/main.py lines 42-52) and the ISO recovery
(lines 186-190) -/

/-- A calendar date as produced by datetime parsing; only the fields the
aggregation uses (the time components play no role downstream). -/
structure Date where
  year : ℕ
  month : ℕ
  day : ℕ
deriving DecidableEq

/-- Gregorian leap-year rule, as in the datetime module. -/
def isLeap (y : ℕ) : Bool :=
  y % 4 = 0 && (y % 100 ≠ 0 || y % 400 = 0)

/-- Days in a month, as in the datetime module. -/
def daysInMonth (y m : ℕ) : ℕ :=
  match m with
  | 2 => if isLeap y then 29 else 28
  | 4 => 30
  | 6 => 30
  | 9 => 30
  | 11 => 30
  | _ => 31

/-- The datetime constructor's validation: MINYEAR 1, MAXYEAR 9999, month and
day in range.  Returns none where the constructor raises ValueError. -/
def mkValidDate (y m d : ℕ) : Option Date :=
  if 1 ≤ y ∧ y ≤ 9999 ∧ 1 ≤ m ∧ m ≤ 12 ∧ 1 ≤ d ∧ d ≤ daysInMonth y m then
    some ⟨y, m, d⟩
  else none

/-- Tokens of the four strptime format strings used by the source. -/
inductive Tok where
  | year : Tok
  | mon : Tok
  | day : Tok
  | lit : Char → Tok

/-- The two-digit numeric alternatives of a strptime field regex, which for
months cover 01-12 and for days cover 01-31 (the union of the alternations
1[0-2] with 0[1-9], respectively 3[01], [12] digit and 0[1-9]). -/
def cand2 (lo hi : ℕ) (cs : List Char) : Option (ℕ × List Char) :=
  match cs with
  | a :: b :: t =>
    if isDigitChar a && isDigitChar b then
      let v := digitVal a * 10 + digitVal b
      if lo ≤ v ∧ v ≤ hi then some (v, t) else none
    else none
  | _ => none

/-- The one-digit numeric alternative [1-9] of a strptime field regex, tried
after the two-digit alternatives, exactly as in the regex alternation order. -/
def cand1 (cs : List Char) : Option (ℕ × List Char) :=
  match cs with
  | a :: t => if isDigitChar a ∧ 1 ≤ digitVal a then some (digitVal a, t) else none
  | _ => none

/-- The %Y field regex: exactly four digits. -/
def candY (cs : List Char) : Option (ℕ × List Char) :=
  match cs with
  | a :: b :: c :: d :: t =>
    if isDigitChar a && isDigitChar b && isDigitChar c && isDigitChar d then
      some (natVal [a, b, c, d], t)
    else none
  | _ => none

/-- Leftmost-priority regex matching of a strptime format against a prefix of
the input, with backtracking between the two-digit and one-digit alternatives
of a numeric field, as the compiled regex does.  Returns the first successful
parse together with the unconsumed remainder (strptime matches a prefix and
only afterwards rejects leftover input). -/
def matchToks : List Tok → List Char → Option ℕ → Option ℕ → Option ℕ →
    Option ((ℕ × ℕ × ℕ) × List Char)
  | [], rest, some y, some m, some d => some ((y, m, d), rest)
  | [], _, _, _, _ => none
  | .lit c :: toks, cs, y, m, d =>
    match cs with
    | c2 :: t => if c2 = c then matchToks toks t y m d else none
    | [] => none
  | .year :: toks, cs, _, m, d =>
    match candY cs with
    | some (v, t) => matchToks toks t (some v) m d
    | none => none
  | .mon :: toks, cs, y, _, d =>
    (match cand2 1 12 cs with
     | some (v, t) => matchToks toks t y (some v) d
     | none => none).orElse (fun _ =>
      match cand1 cs with
      | some (v, t) => matchToks toks t y (some v) d
      | none => none)
  | .day :: toks, cs, y, m, _ =>
    (match cand2 1 31 cs with
     | some (v, t) => matchToks toks t y m (some v)
     | none => none).orElse (fun _ =>
      match cand1 cs with
      | some (v, t) => matchToks toks t y m (some v)
      | none => none)

/-- datetime.strptime for one of the four formats: match the whole string,
then validate through the datetime constructor.  Returns none where Python
raises (no match, unconverted trailing data, or invalid calendar date); the
caller treats all three identically. -/
def strptimeFmt (toks : List Tok) (cs : List Char) : Option Date :=
  match matchToks toks cs none none none with
  | some ((y, m, d), []) => mkValidDate y m d
  | _ => none

/-- Format %Y-%m-%d. -/
def fmtYmdDash : List Tok := [.year, .lit '-', .mon, .lit '-', .day]

/-- Format %d/%m/%Y. -/
def fmtDmySlash : List Tok := [.day, .lit '/', .mon, .lit '/', .year]

/-- Format %m/%d/%Y. -/
def fmtMdySlash : List Tok := [.mon, .lit '/', .day, .lit '/', .year]

/-- Format %Y/%m/%d. -/
def fmtYmdSlash : List Tok := [.year, .lit '/', .mon, .lit '/', .day]

/-- src/main.py parse_date: falsy input gives None, otherwise the four formats
are tried in their listed order and the first success is returned. -/
def parse_date (val : Option String) : Option Date :=
  match val with
  | none => none
  | some v =>
    if v = "" then none
    else
      let s := pyStrip v.data
      ((strptimeFmt fmtYmdDash s).orElse fun _ =>
        (strptimeFmt fmtDmySlash s).orElse fun _ =>
          (strptimeFmt fmtMdySlash s).orElse fun _ =>
            strptimeFmt fmtYmdSlash s)

/-- The time part accepted after an ISO date: HH:MM, optionally :SS, optionally
a fractional part of three or six digits. -/
def isTimePart (cs : List Char) : Bool :=
  match cs with
  | h1 :: h2 :: ':' :: m1 :: m2 :: rest =>
    isDigitChar h1 && isDigitChar h2 && decide (digitVal h1 * 10 + digitVal h2 ≤ 23) &&
    isDigitChar m1 && isDigitChar m2 && decide (digitVal m1 * 10 + digitVal m2 ≤ 59) &&
    (match rest with
     | [] => true
     | ':' :: s1 :: s2 :: rest2 =>
       isDigitChar s1 && isDigitChar s2 && decide (digitVal s1 * 10 + digitVal s2 ≤ 59) &&
       (match rest2 with
        | [] => true
        | '.' :: frac =>
          frac.all isDigitChar && (decide (frac.length = 3) || decide (frac.length = 6))
        | _ => false)
     | _ => false)
  | _ => false

/-- datetime.fromisoformat, restricted to the shapes the claims exercise: a
strict four-digit-year date YYYY-MM-DD, optionally followed by one separator
character and a time part.  Time-zone offsets and the extra ISO-8601 shapes
accepted from Python 3.11 on are not modelled; no claim depends on them. -/
def fromisoformat (cs : List Char) : Option Date :=
  match cs with
  | y1 :: y2 :: y3 :: y4 :: '-' :: m1 :: m2 :: '-' :: d1 :: d2 :: rest =>
    if isDigitChar y1 && isDigitChar y2 && isDigitChar y3 && isDigitChar y4 &&
        isDigitChar m1 && isDigitChar m2 && isDigitChar d1 && isDigitChar d2 &&
        (match rest with
         | [] => true
         | _ :: t => isTimePart t) then
      mkValidDate (natVal [y1, y2, y3, y4]) (digitVal m1 * 10 + digitVal m2)
        (digitVal d1 * 10 + digitVal d2)
    else none
  | _ => none

/-- The full date resolution of src/main.py lines 184-190: parse_date first,
then the fromisoformat recovery on the stripped raw value. -/
def dateOf (val : Option String) : Option Date :=
  match parse_date val with
  | some d => some d
  | none => fromisoformat (pyStrip (val.getD "").data)

/-! ## Month keys and labels -/

/-- Decimal digits of a natural number, most significant first. -/
def natToChars (n : ℕ) : List Char := Nat.toDigits 10 n

/-- Two-digit zero-padded rendering, as %m produces. -/
def pad2 (n : ℕ) : List Char := if n < 10 then '0' :: natToChars n else natToChars n

/-- strftime("%Y-%m"): the year as printed by glibc %Y (no padding) and the
zero-padded month.  All dates strptime or fromisoformat can produce have
four-digit years, for which no padding arises either way. -/
def monthKey (d : Date) : String := String.mk (natToChars d.year ++ '-' :: pad2 d.month)

/-- C-locale %b month abbreviation. -/
def monthAbbrev (m : ℕ) : String :=
  match m with
  | 1 => "Jan"
  | 2 => "Feb"
  | 3 => "Mar"
  | 4 => "Apr"
  | 5 => "May"
  | 6 => "Jun"
  | 7 => "Jul"
  | 8 => "Aug"
  | 9 => "Sep"
  | 10 => "Oct"
  | 11 => "Nov"
  | _ => "Dec"

/-- src/main.py month_label (lines 224-228).  For a seven-character key other
than unknown the source reparses key + "-01" with %Y-%m-%d and renders %b; a
reparse failure would raise in Python, but is unreachable for keys produced by
monthKey, which always reparse; the model renders "N/A" there as on the other
branch. -/
def monthLabel (mkey : String) : String :=
  if mkey ≠ "" ∧ mkey.length = 7 ∧ mkey ≠ "unknown" then
    match strptimeFmt fmtYmdDash (mkey.data ++ ['-', '0', '1']) with
    | some d => monthAbbrev d.month
    | none => "N/A"
  else "N/A"

/-! ## Rows and the DictReader model (src/main.py lines 159-166) -/

/-- One parsed CSV row, restricted to the six columns the aggregation reads.
none covers both an absent key and a key bound to None (see the header
comment); other columns are ignored by the source. -/
structure Row where
  amount : Option String
  quantity : Option String
  totalOrders : Option String
  country : Option String
  paymentMode : Option String
  invoiceDate : Option String
deriving DecidableEq

/-- Python str.splitlines restricted to the line breaks that occur in CSV
exports: newline, carriage return, and their combination. -/
def splitLinesPy : List Char → List Char → List (List Char)
  | [], acc => if acc = [] then [] else [acc.reverse]
  | '\r' :: '\n' :: t, acc => acc.reverse :: splitLinesPy t []
  | '\n' :: t, acc => acc.reverse :: splitLinesPy t []
  | '\r' :: t, acc => acc.reverse :: splitLinesPy t []
  | c :: t, acc => splitLinesPy t (c :: acc)

/-- Split one CSV record into fields at commas.  Quoting is not modelled: no
claim exercises quoted fields. -/
def splitComma (cs : List Char) : List (List Char) :=
  cs.foldr
    (fun c acc =>
      if c = ',' then [] :: acc
      else
        match acc with
        | g :: t => (c :: g) :: t
        | [] => [[c]])
    [[]]

/-- csv.reader on one line: the empty line yields the empty record (which
DictReader skips), any other line is split at commas. -/
def csvFields (line : List Char) : List (List Char) :=
  if line = [] then [] else splitComma line

/-- dict(zip(fieldnames, row)).get(name): pairing is positional and truncating
(extra fields dropped, missing fields absent), and a duplicated header name
keeps the last paired value, as building a dict from pairs does. -/
def colVal (header fields : List (List Char)) (name : String) : Option String :=
  (header.zip fields).foldl
    (fun acc kv => if String.mk kv.1 = name then some (String.mk kv.2) else acc) none

/-- A DictReader row, restricted to the six columns the aggregation reads. -/
def mkRow (header fields : List (List Char)) : Row :=
  { amount := colVal header fields "Amount"
    quantity := colVal header fields "Quantity"
    totalOrders := colVal header fields "TotalOrders"
    country := colVal header fields "Country"
    paymentMode := colVal header fields "PaymentMode"
    invoiceDate := colVal header fields "InvoiceDate" }

/-- csv.DictReader over the body: the first line is the header, empty records
are skipped, every other line becomes a row. -/
def parseCSVRows (body : String) : List Row :=
  match splitLinesPy body.data [] with
  | [] => []
  | header :: rest =>
    (rest.filter (fun line => line ≠ [])).map fun line =>
      mkRow (csvFields header) (csvFields line)

/-! ## Per-row field extraction (src/main.py lines 178-196) -/

/-- Truncation toward zero, as Python int() applied to a float. -/
def truncInt (q : ℚ) : ℤ := q.num.tdiv (q.den : ℤ)

/-- to_float(rrow.get("Amount", "0")); the absent-key default "0" and None
both normalize to 0. -/
def rowAmount (r : Row) : ℚ := to_float r.amount

/-- int(to_float(rrow.get("Quantity", "0"))). -/
def rowQty (r : Row) : ℤ := truncInt (to_float r.quantity)

/-- to_float(rrow.get("TotalOrders", "0")). -/
def rowOrders (r : Row) : ℚ := to_float r.totalOrders

/-- (value or "Unknown").strip() or "Unknown": None and the empty string give
the literal Unknown, as does a value that strips to the empty string. -/
def orUnknown (v : Option String) : String :=
  let c :=
    match v with
    | none => "Unknown"
    | some s => if s = "" then "Unknown" else s
  let c2 := String.mk (pyStrip c.data)
  if c2 = "" then "Unknown" else c2

/-- Country bucket of a row. -/
def rowCountry (r : Row) : String := orUnknown r.country

/-- PaymentMode bucket of a row. -/
def rowPayment (r : Row) : String := orUnknown r.paymentMode

/-- MonthKey of a row: strftime("%Y-%m") of the resolved date, or the sentinel
unknown bucket. -/
def rowMkey (r : Row) : String :=
  match dateOf r.invoiceDate with
  | some d => monthKey d
  | none => "unknown"

/-! ## Dictionary accumulators (insertion-ordered, as Python dicts) -/

/-- dict.get(k, dflt). -/
def lookupD {β : Type} (m : List (String × β)) (k : String) (dflt : β) : β :=
  match m with
  | [] => dflt
  | (k2, v) :: rest => if k2 = k then v else lookupD rest k dflt

/-- m[k] = add (m.get(k, z)) v: update in place when the key is present
(keeping its position), append otherwise, as Python dict assignment does. -/
def updAdd {β : Type} (add : β → β → β) (z : β) (m : List (String × β)) (k : String) (v : β) :
    List (String × β) :=
  match m with
  | [] => [(k, add z v)]
  | (k2, v2) :: rest =>
    if k2 = k then (k2, add v2 v) :: rest else (k2, v2) :: updAdd add z rest k v

/-- set.add.  Python set iteration order is unspecified; the source sorts the
months before using them, so keeping first-insertion order of the distinct
elements is a faithful representation. -/
def addNew (l : List String) (k : String) : List String :=
  if k ∈ l then l else l ++ [k]

/-! ## The aggregation fold (src/main.py lines 168-204) -/

/-- The running accumulators of the row loop. -/
structure Acc where
  totalRevenue : ℚ
  qtyPerMonth : List (String × ℤ)
  revenuePerMonth : List (String × ℚ)
  engagementPerMonth : List (String × ℚ)
  countrySales : List (String × ℚ)
  paymentCounts : List (String × ℕ)
  monthsSet : List String
deriving DecidableEq

/-- The accumulators before the loop. -/
def initAcc : Acc :=
  { totalRevenue := 0
    qtyPerMonth := []
    revenuePerMonth := []
    engagementPerMonth := []
    countrySales := []
    paymentCounts := []
    monthsSet := [] }

/-- One iteration of the row loop. -/
def stepRow (a : Acc) (r : Row) : Acc :=
  { totalRevenue := qadd a.totalRevenue (rowAmount r)
    qtyPerMonth := updAdd (· + ·) 0 a.qtyPerMonth (rowMkey r) (rowQty r)
    revenuePerMonth := updAdd qadd 0 a.revenuePerMonth (rowMkey r) (rowAmount r)
    engagementPerMonth := updAdd qadd 0 a.engagementPerMonth (rowMkey r) (rowOrders r)
    countrySales := updAdd qadd 0 a.countrySales (rowCountry r) (rowAmount r)
    paymentCounts := updAdd (· + ·) 0 a.paymentCounts (rowPayment r) 1
    monthsSet := addNew a.monthsSet (rowMkey r) }

/-- The whole loop. -/
def accumulate (rows : List Row) : Acc := rows.foldl stepRow initAcc

/-! ## Month selection and derived KPIs (src/main.py lines 206-238) -/

/-- Lexicographic comparison of character lists by code point: exactly the
string comparison Python's list.sort uses. -/
def lexLe : List Char → List Char → Bool
  | [], _ => true
  | _ :: _, [] => false
  | a :: as, b :: bs => if a < b then true else if b < a then false else lexLe as bs

/-- The sort order of the month keys. -/
def monthLe (a b : String) : Prop := lexLe a.data b.data = true

instance : DecidableRel monthLe :=
  fun a b => inferInstanceAs (Decidable (lexLe a.data b.data = true))

/-- The observed months without the unknown bucket, sorted ascending.  The
months are distinct (they come from a set), so any sorting algorithm under the
same total order produces the same list as Python's sort. -/
def validMonths (rows : List Row) : List String :=
  List.insertionSort monthLe (((accumulate rows).monthsSet).filter (fun m => m ≠ "unknown"))

/-- valid_months[-1] if valid_months else None. -/
def nowMonth (rows : List Row) : Option String := (validMonths rows).getLast?

/-- valid_months[-2] if len(valid_months) >= 2 else None. -/
def prevMonth (rows : List Row) : Option String :=
  let l := validMonths rows
  if 2 ≤ l.length then (l.drop (l.length - 2)).head? else none

/-- revenue_per_month.get(now_month or "", 0.0). -/
def thisMonthRevenue (rows : List Row) : ℚ :=
  lookupD (accumulate rows).revenuePerMonth ((nowMonth rows).getD "") 0

/-- revenue_per_month.get(prev_month or "", 0.0). -/
def lastMonthRevenue (rows : List Row) : ℚ :=
  lookupD (accumulate rows).revenuePerMonth ((prevMonth rows).getD "") 0

/-- avg_growth (lines 214-216), before the final two-decimal rounding. -/
def avgGrowth (rows : List Row) : ℚ :=
  if 0 < lastMonthRevenue rows then
    qmul (qdiv (qsub (thisMonthRevenue rows) (lastMonthRevenue rows)) (lastMonthRevenue rows)) 100
  else 0

/-- month_count = max(1, len(valid_months)). -/
def monthCount (rows : List Row) : ℕ := max 1 (validMonths rows).length

/-- total_qty = sum(qty_per_month.get(m, 0) for m in valid_months). -/
def totalQty (rows : List Row) : ℤ :=
  ((validMonths rows).map (fun m => lookupD (accumulate rows).qtyPerMonth m 0)).sum

/-- avg_qty_per_month (line 221), before the final rounding. -/
def avgQtyPerMonthRaw (rows : List Row) : ℚ :=
  if 0 < monthCount rows then qdiv (totalQty rows : ℚ) (monthCount rows : ℚ) else 0

/-- Last n elements of a list, as the Python slice l[-n:]. -/
def takeLast {α : Type} (n : ℕ) (l : List α) : List α := l.drop (l.length - n)

/-- Python round-half-to-even of a rational to an integer, the behavior the
round builtin has on exact decimal values; binary-float representation noise
is outside the model. -/
def roundHalfEvenZ (q : ℚ) : ℤ :=
  let f := ⌊q⌋
  let r := qsub q (f : ℚ)
  if r < mkRat 1 2 then f
  else if mkRat 1 2 < r then f + 1
  else if f % 2 = 0 then f else f + 1

/-- round(x, 2). -/
def round2 (q : ℚ) : ℚ := mkRat (roundHalfEvenZ (qmul q 100)) 100

/-- The revenue trend (lines 230-233): the last up to four valid months.  The
source indexes revenue_per_month[m] directly; every valid month is a key of
that mapping, so the lookup default is never used. -/
def revenueTrendOf (rows : List Row) : List (String × ℚ) :=
  (takeLast 4 (validMonths rows)).map fun m =>
    (monthLabel m, round2 (lookupD (accumulate rows).revenuePerMonth m 0))

/-- The engagement trend (lines 235-238): the last up to three valid months,
with an explicit 0.0 lookup default in the source. -/
def engagementTrendOf (rows : List Row) : List (String × ℚ) :=
  (takeLast 3 (validMonths rows)).map fun m =>
    (monthLabel m, round2 (lookupD (accumulate rows).engagementPerMonth m 0))

/-! ## Descending stable sort of the breakdowns (src/main.py lines 240-246) -/

/-- The sort key of sorted(items, key=lambda x: -x[1]): a precedes b when the
value of b does not exceed the value of a; a stable insertion sort under this
relation reproduces Python's stable sort by descending value. -/
def geSnd {β : Type} [LinearOrder β] (a b : String × β) : Prop := b.2 ≤ a.2

instance {β : Type} [LinearOrder β] : DecidableRel (geSnd (β := β)) :=
  fun a b => inferInstanceAs (Decidable (b.2 ≤ a.2))

instance {β : Type} [LinearOrder β] : IsTotal (String × β) (geSnd (β := β)) :=
  ⟨fun a b => le_total b.2 a.2⟩

instance {β : Type} [LinearOrder β] : IsTrans (String × β) (geSnd (β := β)) :=
  ⟨fun _ _ _ h1 h2 => le_trans h2 h1⟩

/-- country_list: countries by descending revenue, values rounded afterwards. -/
def countryListOf (rows : List Row) : List (String × ℚ) :=
  (List.insertionSort geSnd (accumulate rows).countrySales).map fun e => (e.1, round2 e.2)

/-- payment_list: payment modes by descending count. -/
def paymentListOf (rows : List Row) : List (String × ℕ) :=
  List.insertionSort geSnd (accumulate rows).paymentCounts

/-! ## The response (src/main.py lines 248-260) -/

/-- The JSON object the endpoint returns, with the kpis object flattened into
the four numeric fields. -/
structure Analysis where
  source : String
  totalRevenue : ℚ
  thisMonthRevenue : ℚ
  avgGrowth : ℚ
  avgQtyPerMonth : ℚ
  revenueTrend : List (String × ℚ)
  engagementTrend : List (String × ℚ)
  countrySales : List (String × ℚ)
  paymentDistribution : List (String × ℕ)
deriving DecidableEq

/-- The successful-computation response (source "sheet"). -/
def analysisOfRows (rows : List Row) : Analysis :=
  { source := "sheet"
    totalRevenue := round2 (accumulate rows).totalRevenue
    thisMonthRevenue := round2 (thisMonthRevenue rows)
    avgGrowth := round2 (avgGrowth rows)
    avgQtyPerMonth := round2 (avgQtyPerMonthRaw rows)
    revenueTrend := revenueTrendOf rows
    engagementTrend := engagementTrendOf rows
    countrySales := countryListOf rows
    paymentDistribution := paymentListOf rows }

/-- The hardcoded example dataset (src/main.py lines 125-157). -/
def fallbackResponse : Analysis :=
  { source := "fallback"
    totalRevenue := 123456
    thisMonthRevenue := 8940
    avgGrowth := 10.4
    avgQtyPerMonth := 245
    revenueTrend := [("Jan", 22000), ("Feb", 26000), ("Mar", 31000), ("Apr", 28000)]
    engagementTrend := [("Jan", 18000), ("Feb", 21500), ("Mar", 29000)]
    countrySales :=
      [("Country A", 40), ("Country B", 25), ("Country C", 15), ("Country D", 10),
        ("Country E", 10)]
    paymentDistribution :=
      [("UPI / Digital Wallets", 70), ("Credit Card", 15), ("Debit Card", 10), ("Cash", 5)] }

/-- Outcome of requests.get: an exception (timeout, connection error), or a
response with a status code and a body. -/
inductive FetchResult where
  | exn : FetchResult
  | success : ℕ → String → FetchResult

/-- The endpoint (src/main.py lines 110-260).  The HTTPException(502) raised
on a non-200 status sits inside the try block, so it is caught by the same
except clause as a transport failure and routes to the fallback; the 422 on an
empty row set is raised after the try block and surfaces to the caller. -/
def get_analysis (f : FetchResult) : Except ℕ Analysis :=
  match f with
  | .exn => .ok fallbackResponse
  | .success status body =>
    if status ≠ 200 then .ok fallbackResponse
    else
      let rows := parseCSVRows body
      if rows = [] then .error 422
      else .ok (analysisOfRows rows)

/-! ## Helper lemmas -/

theorem pySpace_not_kept (c : Char) (h : isPySpace c = true) :
    (isDigitChar c || c = '.' || c = '-') = false := by
  simp only [isPySpace, Bool.or_eq_true, decide_eq_true_eq] at h
  rcases h with ((((rfl | rfl) | rfl) | rfl) | rfl) | rfl <;> decide

theorem filter_dropWhile_eq {p q : Char → Bool} (h : ∀ c, q c = true → p c = false)
    (l : List Char) : (l.dropWhile q).filter p = l.filter p := by
  induction l with
  | nil => rfl
  | cons c t ih =>
    by_cases hc : q c = true
    · rw [List.dropWhile_cons_of_pos hc, ih, List.filter_cons_of_neg]
      simp [h c hc]
    · rw [List.dropWhile_cons_of_neg hc]

theorem stripCurrency_pyStrip (l : List Char) :
    stripCurrency (pyStrip l) = stripCurrency l := by
  unfold stripCurrency pyStrip
  rw [List.filter_reverse, filter_dropWhile_eq pySpace_not_kept,
    List.filter_reverse, filter_dropWhile_eq pySpace_not_kept, List.reverse_reverse]

theorem to_float_eq_toNumberSpec (val : Option String) : to_float val = toNumberSpec val := by
  cases val with
  | none => rfl
  | some v =>
    show (if pyStrip v.data = [] then 0
      else if stripCurrency (pyStrip v.data) = [] then 0
      else (parseDecimal (stripCurrency (pyStrip v.data))).getD 0) =
        (parseDecimal (stripCurrency v.data)).getD 0
    by_cases h1 : pyStrip v.data = []
    · have h2 : stripCurrency v.data = [] := by
        rw [← stripCurrency_pyStrip, h1]; rfl
      rw [if_pos h1, h2]; rfl
    · rw [if_neg h1, stripCurrency_pyStrip]
      by_cases h2 : stripCurrency v.data = []
      · rw [if_pos h2, h2]; rfl
      · rw [if_neg h2]

theorem lookupD_updAdd {β : Type} (add : β → β → β) (z : β)
    (m : List (String × β)) (k q : String) (v : β) :
    lookupD (updAdd add z m k v) q z =
      if k = q then add (lookupD m k z) v else lookupD m q z := by
  induction m with
  | nil =>
    by_cases h : k = q <;> simp [updAdd, lookupD, h]
  | cons e rest ih =>
    obtain ⟨k2, v2⟩ := e
    by_cases h1 : k2 = k
    · subst h1
      by_cases h2 : k2 = q
      · subst h2
        simp [updAdd, lookupD]
      · simp [updAdd, lookupD, h2]
    · by_cases h2 : k2 = q
      · subst h2
        have hk : k ≠ k2 := fun hh => h1 hh.symm
        simp [updAdd, lookupD, h1, hk]
      · simp [updAdd, lookupD, h1, h2, ih]

theorem lookupD_foldl_updAdd {β : Type} (add : β → β → β) (z : β)
    (key : Row → String) (val : Row → β) (rows : List Row)
    (a : List (String × β)) (q : String) :
    lookupD (rows.foldl (fun m r => updAdd add z m (key r) (val r)) a) q z =
      (rows.filter (fun r => key r = q)).foldl (fun acc r => add acc (val r))
        (lookupD a q z) := by
  induction rows generalizing a with
  | nil => rfl
  | cons r t ih =>
    rw [List.foldl_cons, ih]
    by_cases h : key r = q
    · rw [List.filter_cons_of_pos (by simp [h]), List.foldl_cons,
        lookupD_updAdd, if_pos h, h]
    · rw [List.filter_cons_of_neg (by simp [h]), lookupD_updAdd, if_neg h]

theorem accumulate_totalRevenue (rows : List Row) (a : Acc) :
    (rows.foldl stepRow a).totalRevenue = a.totalRevenue + (rows.map rowAmount).sum := by
  induction rows generalizing a with
  | nil => simp
  | cons r t ih =>
    rw [List.foldl_cons, ih, List.map_cons, List.sum_cons]
    show (stepRow a r).totalRevenue + _ = _
    rw [stepRow]
    dsimp only
    rw [qadd_eq, add_assoc]

theorem accumulate_countrySales (rows : List Row) (a : Acc) :
    (rows.foldl stepRow a).countrySales =
      rows.foldl (fun m r => updAdd qadd 0 m (rowCountry r) (rowAmount r)) a.countrySales := by
  induction rows generalizing a with
  | nil => rfl
  | cons r t ih => rw [List.foldl_cons, List.foldl_cons, ih]; rfl

theorem accumulate_paymentCounts (rows : List Row) (a : Acc) :
    (rows.foldl stepRow a).paymentCounts =
      rows.foldl (fun m r => updAdd (· + ·) 0 m (rowPayment r) 1) a.paymentCounts := by
  induction rows generalizing a with
  | nil => rfl
  | cons r t ih => rw [List.foldl_cons, List.foldl_cons, ih]; rfl

theorem accumulate_revenuePerMonth (rows : List Row) (a : Acc) :
    (rows.foldl stepRow a).revenuePerMonth =
      rows.foldl (fun m r => updAdd qadd 0 m (rowMkey r) (rowAmount r)) a.revenuePerMonth := by
  induction rows generalizing a with
  | nil => rfl
  | cons r t ih => rw [List.foldl_cons, List.foldl_cons, ih]; rfl

theorem accumulate_engagementPerMonth (rows : List Row) (a : Acc) :
    (rows.foldl stepRow a).engagementPerMonth =
      rows.foldl (fun m r => updAdd qadd 0 m (rowMkey r) (rowOrders r)) a.engagementPerMonth := by
  induction rows generalizing a with
  | nil => rfl
  | cons r t ih => rw [List.foldl_cons, List.foldl_cons, ih]; rfl

theorem accumulate_qtyPerMonth (rows : List Row) (a : Acc) :
    (rows.foldl stepRow a).qtyPerMonth =
      rows.foldl (fun m r => updAdd (· + ·) 0 m (rowMkey r) (rowQty r)) a.qtyPerMonth := by
  induction rows generalizing a with
  | nil => rfl
  | cons r t ih => rw [List.foldl_cons, List.foldl_cons, ih]; rfl

theorem accumulate_monthsSet (rows : List Row) (a : Acc) :
    (rows.foldl stepRow a).monthsSet =
      rows.foldl (fun s r => addNew s (rowMkey r)) a.monthsSet := by
  induction rows generalizing a with
  | nil => rfl
  | cons r t ih => rw [List.foldl_cons, List.foldl_cons, ih]; rfl

theorem foldl_qadd_eq_sum (l : List Row) (val : Row → ℚ) (c : ℚ) :
    l.foldl (fun acc r => qadd acc (val r)) c = c + (l.map val).sum := by
  induction l generalizing c with
  | nil => simp
  | cons r t ih =>
    rw [List.foldl_cons, ih, List.map_cons, List.sum_cons, qadd_eq, add_assoc]

theorem foldl_count_eq_length (l : List Row) (c : ℕ) :
    l.foldl (fun acc _ => acc + 1) c = c + l.length := by
  induction l generalizing c with
  | nil => simp
  | cons r t ih => rw [List.foldl_cons, ih, List.length_cons]; omega

/-- The accumulated revenue of one country. -/
def countryRevenue (rows : List Row) (c : String) : ℚ :=
  lookupD (accumulate rows).countrySales c 0

/-- The accumulated occurrence count of one payment mode. -/
def paymentCount (rows : List Row) (p : String) : ℕ :=
  lookupD (accumulate rows).paymentCounts p 0

theorem totalRevenue_eq_sum (rows : List Row) :
    (accumulate rows).totalRevenue = (rows.map rowAmount).sum := by
  rw [accumulate, accumulate_totalRevenue]
  show 0 + _ = _
  rw [zero_add]

theorem countryRevenue_eq_sum (rows : List Row) (c : String) :
    countryRevenue rows c = ((rows.filter (fun r => rowCountry r = c)).map rowAmount).sum := by
  rw [countryRevenue, accumulate, accumulate_countrySales]
  show lookupD (rows.foldl _ initAcc.countrySales) c 0 = _
  rw [lookupD_foldl_updAdd, foldl_qadd_eq_sum]
  show lookupD [] c 0 + _ = _
  rw [lookupD]
  rw [zero_add]

theorem paymentCount_eq_length (rows : List Row) (p : String) :
    paymentCount rows p = (rows.filter (fun r => rowPayment r = p)).length := by
  rw [paymentCount, accumulate, accumulate_paymentCounts]
  show lookupD (rows.foldl _ initAcc.paymentCounts) p 0 = _
  rw [lookupD_foldl_updAdd, foldl_count_eq_length]
  show lookupD [] p 0 + _ = _
  rw [lookupD]
  rw [zero_add]

theorem revenuePerMonth_eq_sum (rows : List Row) (q : String) :
    lookupD (accumulate rows).revenuePerMonth q 0 =
      ((rows.filter (fun r => rowMkey r = q)).map rowAmount).sum := by
  rw [accumulate, accumulate_revenuePerMonth]
  show lookupD (rows.foldl _ initAcc.revenuePerMonth) q 0 = _
  rw [lookupD_foldl_updAdd, foldl_qadd_eq_sum]
  show lookupD [] q 0 + _ = _
  rw [lookupD]
  rw [zero_add]

theorem rowMkey_ne_empty (r : Row) : rowMkey r ≠ "" := by
  rw [rowMkey]
  cases h : dateOf r.invoiceDate with
  | none => decide
  | some d =>
    unfold monthKey
    intro hh
    have hdata : natToChars d.year ++ '-' :: pad2 d.month = [] := by
      have := congrArg String.data hh
      exact this
    cases hx : natToChars d.year with
    | nil => rw [hx] at hdata; simp at hdata
    | cons c t => rw [hx] at hdata; simp at hdata

theorem lookup_revenue_empty (rows : List Row) :
    lookupD (accumulate rows).revenuePerMonth "" 0 = 0 := by
  rw [revenuePerMonth_eq_sum]
  have hf : rows.filter (fun r => rowMkey r = "") = [] := by
    rw [List.filter_eq_nil_iff]
    intro r _
    simp [rowMkey_ne_empty r]
  rw [hf]
  rfl

/-! ## The claims -/

/-- The two-row CSV of the end-to-end scenario. -/
def csvTwoRows : String :=
  "Amount,InvoiceDate,Country,PaymentMode,Quantity,TotalOrders\n100,2024-01-15,A,Cash,2,1\n200,2024-02-10,B,Card,3,2"

/-- C1: For the two-row input CSV with rows (Amount 100, InvoiceDate
2024-01-15, Country A, PaymentMode Cash, Quantity 2, TotalOrders 1) and
(Amount 200, InvoiceDate 2024-02-10, Country B, PaymentMode Card, Quantity 3,
TotalOrders 2), the analysis computation returns totalRevenue 300,
thisMonthRevenue 200, avgGrowth 100.0, revenueTrend Jan 100 then Feb 200, and
countrySales sorted B 200 then A 100. -/
theorem claim_C1 :
    (analysisOfRows (parseCSVRows csvTwoRows)).totalRevenue = 300 ∧
      (analysisOfRows (parseCSVRows csvTwoRows)).thisMonthRevenue = 200 ∧
      (analysisOfRows (parseCSVRows csvTwoRows)).avgGrowth = 100 ∧
      (analysisOfRows (parseCSVRows csvTwoRows)).revenueTrend = [("Jan", 100), ("Feb", 200)] ∧
      (analysisOfRows (parseCSVRows csvTwoRows)).countrySales = [("B", 200), ("A", 100)] ∧
      get_analysis (.success 200 csvTwoRows) = .ok (analysisOfRows (parseCSVRows csvTwoRows)) :=
  ⟨by decide, by decide, by decide, by decide, by decide, rfl⟩

/-- C3 counterexample: on the input a-5 the code keeps the non-leading minus
sign (the regex strips only characters outside digits, point and minus), so
to_float returns -5, while the claimed rule (keep a minus sign only in leading
position) yields 5. -/
theorem claim_C3_counterexample :
    to_float (some "a-5") = -5 ∧ toNumberSpecLiteral (some "a-5") = 5 ∧
      to_float (some "a-5") ≠ toNumberSpecLiteral (some "a-5") := by
  refine ⟨by decide, by decide, by decide⟩

/-- C3 (amended): for every input, to_float is total and returns the value of
the remainder after stripping every character that is not a digit, a decimal
point, or a minus sign (minus signs kept wherever they occur), with 0 for
empty, absent, or unparseable remainders; the three examples hold. -/
theorem claim_C3_amended :
    (∀ val : Option String, to_float val = toNumberSpec val) ∧
      to_float (some "$1,234.56") = 1234.56 ∧
      to_float (some "") = 0 ∧
      to_float (some "abc") = 0 := by
  refine ⟨to_float_eq_toNumberSpec, ?_, by decide, by decide⟩
  have h : to_float (some "$1,234.56") = mkRat 123456 100 := by decide
  rw [h, Rat.mkRat_eq_div]
  norm_num

/-- C4: parse_date tries the four patterns year-month-day, day/month/year,
month/day/year, year/month/day in that order and returns the first success;
the resolution in the endpoint additionally attempts a strict ISO-8601 parse
when all four fail, and yields none only when that also fails.  2024-03-05
parses to March 5 2024 by the first pattern; 05/03/2024 fails the first
pattern and is resolved by day/month/year to March 5 2024; not a date yields
none. -/
theorem claim_C4 :
    (∀ v : String, v ≠ "" →
      parse_date (some v) =
        ((strptimeFmt fmtYmdDash (pyStrip v.data)).orElse fun _ =>
          (strptimeFmt fmtDmySlash (pyStrip v.data)).orElse fun _ =>
            (strptimeFmt fmtMdySlash (pyStrip v.data)).orElse fun _ =>
              strptimeFmt fmtYmdSlash (pyStrip v.data))) ∧
      (∀ val : Option String,
        dateOf val = none ↔
          parse_date val = none ∧ fromisoformat (pyStrip ((val.getD "").data)) = none) ∧
      parse_date (some "2024-03-05") = some ⟨2024, 3, 5⟩ ∧
      strptimeFmt fmtYmdDash "05/03/2024".data = none ∧
      strptimeFmt fmtDmySlash "05/03/2024".data = some ⟨2024, 3, 5⟩ ∧
      parse_date (some "05/03/2024") = some ⟨2024, 3, 5⟩ ∧
      dateOf (some "not a date") = none := by
  refine ⟨?_, ?_, by decide, by decide, by decide, by decide, by decide⟩
  · intro v hv
    show (if v = "" then none else _) = _
    rw [if_neg hv]
  · intro val
    unfold dateOf
    cases h : parse_date val with
    | none => simp
    | some d => simp

/-- C4 witness: the general ordered-pattern statement instantiated at
2024-03-05 and the resolution statement at not a date. -/
theorem claim_C4_witness :
    parse_date (some "2024-03-05") =
      ((strptimeFmt fmtYmdDash (pyStrip ("2024-03-05" : String).data)).orElse fun _ =>
        (strptimeFmt fmtDmySlash (pyStrip ("2024-03-05" : String).data)).orElse fun _ =>
          (strptimeFmt fmtMdySlash (pyStrip ("2024-03-05" : String).data)).orElse fun _ =>
            strptimeFmt fmtYmdSlash (pyStrip ("2024-03-05" : String).data)) :=
  claim_C4.1 "2024-03-05" (by decide)

/-- C5: a fetch exception or a non-200 status yields the fixed fallback
dataset tagged source fallback, never an error response; a successful fetch
with at least one row yields the computed result tagged source sheet. -/
theorem claim_C5 :
    get_analysis .exn = .ok fallbackResponse ∧
      (∀ status body, status ≠ 200 →
        get_analysis (.success status body) = .ok fallbackResponse) ∧
      fallbackResponse.source = "fallback" ∧
      (∀ body, parseCSVRows body ≠ [] →
        get_analysis (.success 200 body) = .ok (analysisOfRows (parseCSVRows body))) ∧
      (∀ rows, (analysisOfRows rows).source = "sheet") := by
  refine ⟨rfl, ?_, rfl, ?_, fun _ => rfl⟩
  · intro status body h
    show (if status ≠ 200 then _ else _) = _
    rw [if_pos h]
  · intro body h
    show (if (200 : ℕ) ≠ 200 then Except.ok fallbackResponse
      else if parseCSVRows body = [] then Except.error 422
      else Except.ok (analysisOfRows (parseCSVRows body))) =
        Except.ok (analysisOfRows (parseCSVRows body))
    rw [if_neg (by simp), if_neg h]

/-- C5 witness: a 500 status routes to the fallback, and the two-row CSV at
status 200 routes to the computed sheet response. -/
theorem claim_C5_witness :
    get_analysis (.success 500 "x") = .ok fallbackResponse ∧
      get_analysis (.success 200 csvTwoRows) = .ok (analysisOfRows (parseCSVRows csvTwoRows)) :=
  ⟨claim_C5.2.1 500 "x" (by decide), claim_C5.2.2.2.1 csvTwoRows (by decide)⟩

/-- C6: a successful fetch whose CSV body has zero data rows (empty body, or a
header with no data lines) yields the 422 error response, not the fallback. -/
theorem claim_C6 :
    (∀ body, parseCSVRows body = [] → get_analysis (.success 200 body) = .error 422) ∧
      parseCSVRows "" = [] ∧
      parseCSVRows "Amount,InvoiceDate,Country,PaymentMode,Quantity,TotalOrders" = [] := by
  refine ⟨?_, by decide, by decide⟩
  intro body h
  show (if (200 : ℕ) ≠ 200 then Except.ok fallbackResponse
    else if parseCSVRows body = [] then Except.error 422
    else Except.ok (analysisOfRows (parseCSVRows body))) = Except.error 422
  rw [if_neg (by simp), if_pos h]

/-- C6 witness: the empty body case. -/
theorem claim_C6_witness : get_analysis (.success 200 "") = .error 422 :=
  claim_C6.1 "" (by decide)

/-- C2: for every parsed row set, avg_growth equals the month-over-month
growth formula when the previous month revenue is strictly positive, and is 0
when that revenue is zero or negative, and also when fewer than two valid
months were observed (the previous month lookup then falls back to the empty
key, which is never a month bucket).  Division in the model is total, so no
division error can arise; the formula branch divides by a strictly positive
value. -/
theorem claim_C2 (rows : List Row) :
    (0 < lastMonthRevenue rows →
      avgGrowth rows =
        (thisMonthRevenue rows - lastMonthRevenue rows) / lastMonthRevenue rows * 100) ∧
      (lastMonthRevenue rows ≤ 0 → avgGrowth rows = 0) ∧
      ((validMonths rows).length < 2 → avgGrowth rows = 0) := by
  refine ⟨?_, ?_, ?_⟩
  · intro h
    rw [avgGrowth, if_pos h, qmul_eq, qdiv_eq, qsub_eq]
  · intro h
    rw [avgGrowth, if_neg (not_lt.mpr h)]
  · intro h
    have hpm : prevMonth rows = none := by
      rw [prevMonth]
      exact if_neg (by omega)
    have hzero : lastMonthRevenue rows = 0 := by
      rw [lastMonthRevenue, hpm]
      exact lookup_revenue_empty rows
    rw [avgGrowth, if_neg (by rw [hzero]; exact lt_irrefl 0)]

/-- The first row of the end-to-end scenario, used as a concrete witness
input. -/
def rowA : Row :=
  { amount := some "100", quantity := some "2", totalOrders := some "1",
    country := some "A", paymentMode := some "Cash", invoiceDate := some "2024-01-15" }

/-- The second row of the end-to-end scenario. -/
def rowB : Row :=
  { amount := some "200", quantity := some "3", totalOrders := some "2",
    country := some "B", paymentMode := some "Card", invoiceDate := some "2024-02-10" }

/-- A row whose invoice date parses under no pattern. -/
def rowBad : Row :=
  { amount := some "50", quantity := some "4", totalOrders := some "3",
    country := some "A", paymentMode := some "Cash", invoiceDate := some "not a date" }

/-- C2 witness: the three branches at concrete inputs — two months with
positive previous revenue, a single month, and no rows. -/
theorem claim_C2_witness :
    avgGrowth [rowA, rowB] =
      (thisMonthRevenue [rowA, rowB] - lastMonthRevenue [rowA, rowB]) /
        lastMonthRevenue [rowA, rowB] * 100 ∧
      avgGrowth [rowA] = 0 ∧
      avgGrowth [] = 0 :=
  ⟨(claim_C2 [rowA, rowB]).1 (by decide), (claim_C2 [rowA]).2.2 (by decide),
    (claim_C2 []).2.1 (by decide)⟩

/-- C7: permuting the input rows leaves the total revenue, every per-country
revenue sum, and every per-payment-mode occurrence count unchanged. -/
theorem claim_C7 (rows rows2 : List Row) (h : rows.Perm rows2) :
    (accumulate rows).totalRevenue = (accumulate rows2).totalRevenue ∧
      (∀ c, countryRevenue rows c = countryRevenue rows2 c) ∧
      (∀ p, paymentCount rows p = paymentCount rows2 p) := by
  refine ⟨?_, ?_, ?_⟩
  · rw [totalRevenue_eq_sum, totalRevenue_eq_sum]
    exact (h.map rowAmount).sum_eq
  · intro c
    rw [countryRevenue_eq_sum, countryRevenue_eq_sum]
    exact ((h.filter _).map rowAmount).sum_eq
  · intro p
    rw [paymentCount_eq_length, paymentCount_eq_length]
    exact (h.filter _).length_eq

/-- C7 witness: swapping the two scenario rows changes neither the total nor
the bucket sums for country A and payment mode Cash. -/
theorem claim_C7_witness :
    (accumulate [rowA, rowB]).totalRevenue = (accumulate [rowB, rowA]).totalRevenue ∧
      countryRevenue [rowA, rowB] "A" = countryRevenue [rowB, rowA] "A" ∧
      paymentCount [rowA, rowB] "Cash" = paymentCount [rowB, rowA] "Cash" :=
  ⟨(claim_C7 [rowA, rowB] [rowB, rowA] (List.Perm.swap rowB rowA [])).1,
    (claim_C7 [rowA, rowB] [rowB, rowA] (List.Perm.swap rowB rowA [])).2.1 "A",
    (claim_C7 [rowA, rowB] [rowB, rowA] (List.Perm.swap rowB rowA [])).2.2 "Cash"⟩

/-- Stability of orderedInsert under geSnd: filtering the insertion result to
one value class either prepends the inserted entry (when it belongs to the
class — every entry it was inserted after has a strictly greater value, hence
lies outside the class) or leaves the filtered list unchanged. -/
theorem filter_orderedInsert_val {β : Type} [LinearOrder β]
    (x : String × β) (l : List (String × β)) (v : β) :
    (List.orderedInsert geSnd x l).filter (fun e => e.2 = v) =
      if x.2 = v then x :: l.filter (fun e => e.2 = v)
      else l.filter (fun e => e.2 = v) := by
  induction l with
  | nil =>
    by_cases h : x.2 = v <;> simp [List.orderedInsert, List.filter, h]
  | cons y t ih =>
    rw [List.orderedInsert]
    by_cases hg : geSnd x y
    · rw [if_pos hg]
      by_cases hx : x.2 = v
      · rw [List.filter_cons_of_pos (by simp [hx]), if_pos hx]
      · rw [List.filter_cons_of_neg (by simp [hx]), if_neg hx]
    · rw [if_neg hg]
      have hlt : x.2 < y.2 := not_le.mp hg
      by_cases hy : y.2 = v
      · have hx : ¬ x.2 = v := by
          intro hxv
          rw [hxv, hy] at hlt
          exact lt_irrefl v hlt
        rw [List.filter_cons_of_pos (by simp [hy]), ih, if_neg hx, if_neg hx,
          List.filter_cons_of_pos (by simp [hy])]
      · rw [List.filter_cons_of_neg (by simp [hy]), ih,
          List.filter_cons_of_neg (by simp [hy])]

/-- Stability of the descending insertion sort: the entries of any one value
class keep their relative order. -/
theorem filter_insertionSort_val {β : Type} [LinearOrder β]
    (l : List (String × β)) (v : β) :
    (List.insertionSort geSnd l).filter (fun e => e.2 = v) =
      l.filter (fun e => e.2 = v) := by
  induction l with
  | nil => rfl
  | cons x t ih =>
    rw [List.insertionSort, filter_orderedInsert_val, ih]
    by_cases h : x.2 = v
    · rw [if_pos h, List.filter_cons_of_pos (by simp [h])]
    · rw [if_neg h, List.filter_cons_of_neg (by simp [h])]

theorem map_fst_updAdd {β : Type} (add : β → β → β) (z : β)
    (m : List (String × β)) (k : String) (v : β) :
    (updAdd add z m k v).map Prod.fst = addNew (m.map Prod.fst) k := by
  induction m with
  | nil => rfl
  | cons e rest ih =>
    obtain ⟨k2, v2⟩ := e
    by_cases h : k2 = k
    · subst h
      simp [updAdd, addNew]
    · rw [List.map_cons]
      show (if k2 = k then (k2, add v2 v) :: rest
        else (k2, v2) :: updAdd add z rest k v).map Prod.fst = _
      rw [if_neg h, List.map_cons, ih, addNew, addNew]
      by_cases hm : k ∈ rest.map Prod.fst
      · rw [if_pos hm, if_pos (by simp [hm])]
      · have : ¬ k ∈ k2 :: rest.map Prod.fst := by
          intro hc
          rcases List.mem_cons.mp hc with hc1 | hc2
          · exact h hc1.symm
          · exact hm hc2
        rw [if_neg hm, if_neg this, List.cons_append]

/-- The keys of a fold of updAdd updates, in order: the distinct keys in first
encounter order. -/
theorem map_fst_foldl_updAdd {β : Type} (add : β → β → β) (z : β)
    (key : Row → String) (val : Row → β) (rows : List Row) (a : List (String × β)) :
    (rows.foldl (fun m r => updAdd add z m (key r) (val r)) a).map Prod.fst =
      rows.foldl (fun s r => addNew s (key r)) (a.map Prod.fst) := by
  induction rows generalizing a with
  | nil => rfl
  | cons r t ih =>
    rw [List.foldl_cons, List.foldl_cons, ih, map_fst_updAdd]

/-- First-encounter order of the distinct elements of a list. -/
def encounterOrder (l : List String) : List String := l.foldl addNew []

/-- C8: the country and payment breakdowns are the stable descending sorts of
the accumulated mappings: the sorted lists are weakly descending in
accumulated value, entries of equal accumulated value keep their relative
order, and the mapping keys stand in first-encounter order of the row
sequence.  The response country list carries the rounded values of the sorted
list, in the same order. -/
theorem claim_C8 (rows : List Row) :
    ((analysisOfRows rows).countrySales =
        (List.insertionSort geSnd (accumulate rows).countrySales).map
          (fun e => (e.1, round2 e.2))) ∧
      (analysisOfRows rows).paymentDistribution =
        List.insertionSort geSnd (accumulate rows).paymentCounts ∧
      List.Sorted geSnd (List.insertionSort geSnd (accumulate rows).countrySales) ∧
      List.Sorted geSnd (List.insertionSort geSnd (accumulate rows).paymentCounts) ∧
      (∀ v : ℚ,
        (List.insertionSort geSnd (accumulate rows).countrySales).filter
            (fun e => e.2 = v) =
          (accumulate rows).countrySales.filter (fun e => e.2 = v)) ∧
      (∀ v : ℕ,
        (List.insertionSort geSnd (accumulate rows).paymentCounts).filter
            (fun e => e.2 = v) =
          (accumulate rows).paymentCounts.filter (fun e => e.2 = v)) ∧
      (accumulate rows).countrySales.map Prod.fst = encounterOrder (rows.map rowCountry) ∧
      (accumulate rows).paymentCounts.map Prod.fst = encounterOrder (rows.map rowPayment) := by
  refine ⟨rfl, rfl, List.sorted_insertionSort geSnd _, List.sorted_insertionSort geSnd _,
    fun v => filter_insertionSort_val _ v, fun v => filter_insertionSort_val _ v, ?_, ?_⟩
  · rw [accumulate, accumulate_countrySales, map_fst_foldl_updAdd, encounterOrder,
      List.foldl_map]
    rfl
  · rw [accumulate, accumulate_paymentCounts, map_fst_foldl_updAdd, encounterOrder,
      List.foldl_map]
    rfl

theorem validMonths_ne_unknown (rows : List Row) (m : String) (h : m ∈ validMonths rows) :
    m ≠ "unknown" := by
  rw [validMonths] at h
  have h2 := (List.perm_insertionSort monthLe _).mem_iff.mp h
  have h3 := List.mem_filter.mp h2
  simpa using h3.2

theorem accumulate_append_single (rows : List Row) (r : Row) :
    accumulate (rows ++ [r]) = stepRow (accumulate rows) r := by
  rw [accumulate, List.foldl_append, List.foldl_cons, List.foldl_nil]
  rfl

theorem validMonths_append_unknown (rows : List Row) (r : Row)
    (hm : rowMkey r = "unknown") : validMonths (rows ++ [r]) = validMonths rows := by
  rw [validMonths, validMonths, accumulate_append_single]
  show List.insertionSort monthLe
      ((addNew (accumulate rows).monthsSet (rowMkey r)).filter (fun m => m ≠ "unknown")) = _
  rw [hm, addNew]
  by_cases hmem : "unknown" ∈ (accumulate rows).monthsSet
  · rw [if_pos hmem]
  · rw [if_neg hmem, List.filter_append]
    simp

/-- C9: a row whose invoice date fails every parse lands in the unknown
bucket: its amount still counts toward the total revenue and its country
bucket and its occurrence toward its payment-mode count, while the valid
months, both trends, and the average quantity per month are unchanged (its
quantity and engagement are excluded from every month-based computation). -/
theorem claim_C9 (rows : List Row) (r : Row) (h : dateOf r.invoiceDate = none) :
    (accumulate (rows ++ [r])).totalRevenue = (accumulate rows).totalRevenue + rowAmount r ∧
      countryRevenue (rows ++ [r]) (rowCountry r) =
        countryRevenue rows (rowCountry r) + rowAmount r ∧
      paymentCount (rows ++ [r]) (rowPayment r) = paymentCount rows (rowPayment r) + 1 ∧
      validMonths (rows ++ [r]) = validMonths rows ∧
      revenueTrendOf (rows ++ [r]) = revenueTrendOf rows ∧
      engagementTrendOf (rows ++ [r]) = engagementTrendOf rows ∧
      avgQtyPerMonthRaw (rows ++ [r]) = avgQtyPerMonthRaw rows := by
  have hm : rowMkey r = "unknown" := by
    rw [rowMkey, h]
  have hvm := validMonths_append_unknown rows r hm
  have hlook : ∀ {β : Type} (add : β → β → β) (z : β) (mp : List (String × β)) (v : β)
      (m : String), m ≠ "unknown" →
      lookupD (updAdd add z mp (rowMkey r) v) m z = lookupD mp m z := by
    intro β add z mp v m hne
    rw [lookupD_updAdd, if_neg (by rw [hm]; exact fun hh => hne hh.symm)]
  refine ⟨?_, ?_, ?_, hvm, ?_, ?_, ?_⟩
  · rw [accumulate_append_single]
    show qadd (accumulate rows).totalRevenue (rowAmount r) = _
    rw [qadd_eq]
  · rw [countryRevenue, countryRevenue, accumulate_append_single]
    show lookupD (updAdd qadd 0 (accumulate rows).countrySales (rowCountry r) (rowAmount r))
      (rowCountry r) 0 = _
    rw [lookupD_updAdd, if_pos rfl, qadd_eq]
  · rw [paymentCount, paymentCount, accumulate_append_single]
    show lookupD (updAdd (· + ·) 0 (accumulate rows).paymentCounts (rowPayment r) 1)
      (rowPayment r) 0 = _
    rw [lookupD_updAdd, if_pos rfl]
  · rw [revenueTrendOf, revenueTrendOf, hvm]
    refine List.map_congr_left fun m hmem => ?_
    have hne : m ≠ "unknown" :=
      validMonths_ne_unknown rows m (List.drop_subset _ _ hmem)
    rw [accumulate_append_single]
    show (monthLabel m,
      round2 (lookupD (updAdd qadd 0 (accumulate rows).revenuePerMonth (rowMkey r)
        (rowAmount r)) m 0)) = _
    rw [hlook qadd 0 _ _ m hne]
  · rw [engagementTrendOf, engagementTrendOf, hvm]
    refine List.map_congr_left fun m hmem => ?_
    have hne : m ≠ "unknown" :=
      validMonths_ne_unknown rows m (List.drop_subset _ _ hmem)
    rw [accumulate_append_single]
    show (monthLabel m,
      round2 (lookupD (updAdd qadd 0 (accumulate rows).engagementPerMonth (rowMkey r)
        (rowOrders r)) m 0)) = _
    rw [hlook qadd 0 _ _ m hne]
  · rw [avgQtyPerMonthRaw, avgQtyPerMonthRaw, monthCount, monthCount, hvm,
      totalQty, totalQty, hvm]
    have hmap : (validMonths rows).map
        (fun m => lookupD (accumulate (rows ++ [r])).qtyPerMonth m 0) =
        (validMonths rows).map (fun m => lookupD (accumulate rows).qtyPerMonth m 0) := by
      refine List.map_congr_left fun m hmem => ?_
      have hne : m ≠ "unknown" := validMonths_ne_unknown rows m hmem
      rw [accumulate_append_single]
      show lookupD (updAdd (· + ·) 0 (accumulate rows).qtyPerMonth (rowMkey r)
        (rowQty r)) m 0 = _
      rw [hlook (· + ·) 0 _ _ m hne]
    rw [hmap]

/-- C9 witness: appending the unparseable-date row to the one-row list adds
its amount to the total and leaves the trend input unchanged. -/
theorem claim_C9_witness :
    (accumulate ([rowA] ++ [rowBad])).totalRevenue =
        (accumulate [rowA]).totalRevenue + rowAmount rowBad ∧
      validMonths ([rowA] ++ [rowBad]) = validMonths [rowA] :=
  ⟨(claim_C9 [rowA] rowBad (by decide)).1, (claim_C9 [rowA] rowBad (by decide)).2.2.2.1⟩

theorem monthsFold_filter_unknown (rows : List Row) (a : List String)
    (hrows : ∀ r ∈ rows, rowMkey r = "unknown")
    (ha : a.filter (fun m => m ≠ "unknown") = []) :
    (rows.foldl (fun s r => addNew s (rowMkey r)) a).filter (fun m => m ≠ "unknown") = [] := by
  induction rows generalizing a with
  | nil => exact ha
  | cons r t ih =>
    rw [List.foldl_cons]
    refine ih _ (fun x hx => hrows x (List.mem_cons_of_mem r hx)) ?_
    rw [hrows r (List.mem_cons_self r t), addNew]
    by_cases hmem : "unknown" ∈ a
    · rw [if_pos hmem]
      exact ha
    · rw [if_neg hmem, List.filter_append, ha]
      simp

/-- C10: a fetched CSV with at least one row but no parsable invoice date
still yields a success response tagged sheet, with this-month revenue, growth
and average quantity all zero and both trends empty, while the total revenue
and the country and payment breakdowns are still computed from all rows. -/
theorem claim_C10 (body : String) (hne : parseCSVRows body ≠ [])
    (hdates : ∀ r ∈ parseCSVRows body, dateOf r.invoiceDate = none) :
    get_analysis (.success 200 body) = .ok (analysisOfRows (parseCSVRows body)) ∧
      (analysisOfRows (parseCSVRows body)).source = "sheet" ∧
      (analysisOfRows (parseCSVRows body)).thisMonthRevenue = 0 ∧
      (analysisOfRows (parseCSVRows body)).avgGrowth = 0 ∧
      (analysisOfRows (parseCSVRows body)).avgQtyPerMonth = 0 ∧
      (analysisOfRows (parseCSVRows body)).revenueTrend = [] ∧
      (analysisOfRows (parseCSVRows body)).engagementTrend = [] ∧
      (analysisOfRows (parseCSVRows body)).totalRevenue =
        round2 ((parseCSVRows body).map rowAmount).sum ∧
      (∀ c, countryRevenue (parseCSVRows body) c =
        (((parseCSVRows body).filter (fun r => rowCountry r = c)).map rowAmount).sum) ∧
      (∀ p, paymentCount (parseCSVRows body) p =
        ((parseCSVRows body).filter (fun r => rowPayment r = p)).length) := by
  have hmk : ∀ r ∈ parseCSVRows body, rowMkey r = "unknown" := fun r hr => by
    rw [rowMkey, hdates r hr]
  have hvm : validMonths (parseCSVRows body) = [] := by
    have hfold := monthsFold_filter_unknown (parseCSVRows body) initAcc.monthsSet hmk rfl
    rw [validMonths, accumulate, accumulate_monthsSet, hfold]
    rfl
  have hthis : thisMonthRevenue (parseCSVRows body) = 0 := by
    rw [thisMonthRevenue, nowMonth, hvm]
    exact lookup_revenue_empty _
  have hlast : lastMonthRevenue (parseCSVRows body) = 0 := by
    rw [lastMonthRevenue, prevMonth, hvm]
    rw [if_neg (by simp)]
    exact lookup_revenue_empty _
  refine ⟨?_, rfl, ?_, ?_, ?_, ?_, ?_, ?_, ?_, ?_⟩
  · show (if (200 : ℕ) ≠ 200 then Except.ok fallbackResponse
      else if parseCSVRows body = [] then Except.error 422
      else Except.ok (analysisOfRows (parseCSVRows body))) = _
    rw [if_neg (by simp), if_neg hne]
  · show round2 (thisMonthRevenue (parseCSVRows body)) = 0
    rw [hthis]
    decide
  · show round2 (avgGrowth (parseCSVRows body)) = 0
    rw [avgGrowth, if_neg (by rw [hlast]; exact lt_irrefl 0)]
    decide
  · show round2 (avgQtyPerMonthRaw (parseCSVRows body)) = 0
    have hq : avgQtyPerMonthRaw (parseCSVRows body) = 0 := by
      rw [avgQtyPerMonthRaw, totalQty, monthCount, hvm]
      show (if 0 < max 1 ([] : List String).length then
        qdiv ((((([] : List String).map _).sum : ℤ) : ℚ)) ((max 1 ([] : List String).length : ℕ) : ℚ)
        else 0) = 0
      rw [if_pos (by simp)]
      simp [qdiv_eq]
    rw [hq]
    decide
  · show revenueTrendOf (parseCSVRows body) = []
    rw [revenueTrendOf, hvm]
    rfl
  · show engagementTrendOf (parseCSVRows body) = []
    rw [engagementTrendOf, hvm]
    rfl
  · show round2 (accumulate (parseCSVRows body)).totalRevenue = _
    rw [totalRevenue_eq_sum]
  · exact fun c => countryRevenue_eq_sum _ c
  · exact fun p => paymentCount_eq_length _ p

/-- A one-row CSV whose invoice date parses under no pattern. -/
def csvNoDates : String :=
  "Amount,InvoiceDate,Country,PaymentMode,Quantity,TotalOrders\n7,nope,X,Cash,1,1"

/-- C10 witness: the one-row no-dates CSV yields the zeroed month KPIs and
empty trends. -/
theorem claim_C10_witness :
    (analysisOfRows (parseCSVRows csvNoDates)).thisMonthRevenue = 0 ∧
      (analysisOfRows (parseCSVRows csvNoDates)).revenueTrend = [] :=
  ⟨(claim_C10 csvNoDates (by decide) (by decide)).2.2.1,
    (claim_C10 csvNoDates (by decide) (by decide)).2.2.2.2.2.1⟩

end SalesAnalysis
